import Mathlib

/-!
Verification of the serial-stream synchronization and GPS sentence-decoding core
of the `gps-animal-tracker` repository.

The embedding models the Python sources:
  * `src/device/decode-gps-data/app.py` (flush_serial, get_next_location, main loop)
  * `src/device/send-gps-data/app.py`   (identical core, plus send_message)
  * `src/device/print-gps-data/app.py`  (flush_serial variant, display loop)
  * `src/functions/gps_data_trigger/__init__.py` (storage shaping)

The serial transport is modelled as a finite list of read results: each
`serial_conn.readline()` consumes one chunk, which either decodes cleanly to a
text line or raises `UnicodeDecodeError`.  An exhausted list stands for a
transport that yields nothing further, on which every read-retry loop of the
code blocks forever (`Outcome.diverges`).

The NMEA sentence parser (`pynmea2.parse`) and the coordinate converter
(`pynmea2.dm_to_sd`) are third-party collaborators whose sources are not part
of this repository; they are modelled from the spec's description of the
collaborator interface (sentence type discriminant, latitude/longitude
magnitude+hemisphere sub-fields, satellite count, `decimal = degrees +
minutes/60` on the `DDMM.MMMM` wire format, optional `*HH` checksum verified
when present).  Coordinates are rationals (exact stand-ins for Python floats;
all claims are either exact or carry a 1e-4 tolerance far above float error).
-/

namespace GPS

/-- Python exceptions that can propagate out of the modelled code. -/
inductive PyExn where
  | unicodeDecodeError
  | typeError
  | attributeError
deriving DecidableEq, Repr

/-- One result of `serial_conn.readline().decode('utf-8')`: either the decoded
text of the line, or an undecodable byte chunk (decode raises
`UnicodeDecodeError`, e.g. a read that starts mid-way through a multi-byte
character). -/
inductive ReadChunk where
  | text (s : String)
  | undecodable
deriving DecidableEq, Repr

/-- Result of running a piece of the code against a finite stream of read
results: a normal return value together with the unconsumed remainder of the
stream, an uncaught propagating exception, or divergence (a read-retry loop
that the finite stream can never satisfy blocks forever). -/
inductive Outcome (α : Type) where
  | ok (a : α) (rest : List ReadChunk)
  | raises (e : PyExn)
  | diverges
deriving DecidableEq, Repr

/-- The `LatLon` NamedTuple of decode-gps-data/app.py and send-gps-data/app.py:
latitude, longitude and the number of satellites used for the fix. -/
structure LatLon where
  lat : ℚ
  lon : ℚ
  num_satellites : ℕ
deriving DecidableEq, Repr

/-- A Python call `LatLon(lat, lon[, sats])` with two or three positional
arguments.  `LatLon` is a `typing.NamedTuple` whose three fields have no
default values, so a call supplying only two arguments raises
`TypeError: missing required positional argument: num_satellites`. -/
def latLonCall (lat lon : ℚ) : Option ℕ → Except PyExn LatLon
  | some n => .ok ⟨lat, lon, n⟩
  | none => .error .typeError

/-! Character-level utilities: (Python `str.strip`, splitting) -/

/-- Drop leading and trailing whitespace from a character list. -/
def trimChars (cs : List Char) : List Char :=
  ((cs.dropWhile Char.isWhitespace).reverse.dropWhile Char.isWhitespace).reverse

/-- Python `str.strip()` with no arguments: remove leading and trailing
whitespace. -/
def pyStrip (s : String) : String := ⟨trimChars s.data⟩

/-- Split a character list on a separator character (like Python
`str.split(sep)`): always returns at least one (possibly empty) field. -/
def splitOnChar (sep : Char) : List Char → List (List Char)
  | [] => [[]]
  | c :: rest =>
    match splitOnChar sep rest with
    | [] => [[]]
    | f :: fs => if c = sep then [] :: f :: fs else (c :: f) :: fs

/-- Numeric value of a list of decimal digit characters. -/
def digitsVal (cs : List Char) : ℕ :=
  cs.foldl (fun n c => n * 10 + (c.toNat - 48)) 0

/-- Parse a non-empty all-digit character list as a natural number. -/
def natFromDigits (cs : List Char) : Option ℕ :=
  if cs ≠ [] ∧ cs.all Char.isDigit then some (digitsVal cs) else none

/-- Value of one hexadecimal digit character (upper or lower case). -/
def hexVal (c : Char) : Option ℕ :=
  if c.isDigit then some (c.toNat - 48)
  else if 'A' ≤ c ∧ c ≤ 'F' then some (c.toNat - 55)
  else if 'a' ≤ c ∧ c ≤ 'f' then some (c.toNat - 87)
  else none

/-- NMEA checksum verification: the XOR of all characters between `$` and `*`
must equal the two-digit hexadecimal value following `*`. -/
def checksumOk (data : List Char) (cs : List Char) : Bool :=
  match cs with
  | [h1, h2] =>
    match hexVal h1, hexVal h2 with
    | some a, some b =>
      data.foldl (fun acc c => Nat.xor acc c.toNat) 0 = a * 16 + b
    | _, _ => false
  | _ => false

/-! Degree-minute coordinate conversion (`pynmea2.dm_to_sd`)

Modelled from the spec: `pynmea2` is not part of this repository.  The spec's
glossary gives the wire format `DDMM.MMMM` (degrees plus decimal minutes) and
the conversion `decimal = degrees + minutes/60`; `dm_to_sd` returns `0` for an
empty or `"0"` field and otherwise splits the digits before the decimal point
into degrees (all but the last two) and minutes (the last two plus the
fractional part).  A field that does not match the format has no
magnitude (the match fails, an `AttributeError` in the original). -/

/-- Decompose a `DDMM.MMMM` coordinate magnitude field into its degrees and
decimal-minutes parts.  `none` when the field does not match the wire format. -/
def dmParts (dm : String) : Option (ℕ × ℚ) :=
  if dm = "" ∨ dm = "0" then some (0, 0)
  else
    match splitOnChar '.' dm.data with
    | [ip, fp] =>
      if 3 ≤ ip.length ∧ ip.all Char.isDigit ∧ 1 ≤ fp.length ∧ fp.all Char.isDigit then
        some (digitsVal (ip.take (ip.length - 2)),
              (digitsVal (ip.drop (ip.length - 2)) : ℚ) +
                (digitsVal fp : ℚ) / (10 : ℚ) ^ fp.length)
      else none
    | _ => none

/-- Conversion `pynmea2.dm_to_sd`: degrees-plus-decimal-minutes magnitude to an unsigned
decimal-degrees value, `decimal = degrees + minutes/60`. -/
def dmToSd (dm : String) : Option ℚ :=
  (dmParts dm).map fun p => (p.1 : ℚ) + p.2 / 60

/-! Sentence parsing (`pynmea2.parse`)

Modelled from the spec: a Sentence is "a parsed structured record extracted
from a TextLine, with a discriminant (sentence type) and, for the target type,
sub-fields: latitude magnitude+hemisphere, longitude magnitude+hemisphere,
satellite count. Invariant: a Sentence is either well-formed for its declared
type or parsing fails outright."  A sentence is `$` + five-character
talker/type identifier + comma-separated fields + optional `*HH` checksum
(verified when present); leading/trailing whitespace including the line
delimiter is tolerated, matching the parser's wire grammar. -/

/-- The sub-fields of a target-type (GGA) sentence that the core reads:
coordinate magnitude strings, hemisphere indicators and satellite count. -/
structure GGAFields where
  lat : String
  lat_dir : String
  lon : String
  lon_dir : String
  num_sats : ℕ
deriving DecidableEq, Repr

/-- A parsed sentence: the target type with its sub-fields, or any other
sentence type identified by its three-character type discriminant. -/
inductive Sentence where
  | gga (f : GGAFields)
  | other (stype : String)
deriving DecidableEq, Repr

/-- Parse the comma-separated fields following a `GGA` identifier.  The fields
are timestamp, latitude, latitude hemisphere, longitude, longitude hemisphere,
fix quality, satellite count, … — required-field validation demands
wire-format coordinate magnitudes and a numeric satellite count. -/
def parseGGA (fields : List (List Char)) : Option Sentence :=
  match fields with
  | _ts :: lat :: latDir :: lon :: lonDir :: _qual :: numSats :: _rest =>
    match dmParts ⟨lat⟩, dmParts ⟨lon⟩, natFromDigits numSats with
    | some _, some _, some ns =>
      some (.gga ⟨⟨lat⟩, ⟨latDir⟩, ⟨lon⟩, ⟨lonDir⟩, ns⟩)
    | _, _, _ => none
  | _ => none

/-- Parse the body of a sentence (between `$` and `*`): a five-character
talker+type identifier followed by at least one comma-separated field; the
sentence type is the identifier minus its two-character talker prefix. -/
def parseData (data : List Char) : Option Sentence :=
  match splitOnChar ',' data with
  | ident :: f1 :: rest =>
    if ident.length = 5 then
      let stype : String := ⟨ident.drop 2⟩
      if stype = "GGA" then parseGGA (f1 :: rest) else some (.other stype)
    else none
  | _ => none

/-- Parser `pynmea2.parse`: parse one text line as an NMEA sentence.  `none` models a
raised `pynmea2.nmea.ParseError` (malformed sentence, bad checksum, failed
required-field validation). -/
def parse (line : String) : Option Sentence :=
  match trimChars line.data with
  | '$' :: body =>
    match splitOnChar '*' body with
    | [data] => parseData data
    | [data, cs] => if checksumOk data cs then parseData data else none
    | _ => none
  | _ => none

/-! Line Reader: `flush_serial`.

The stream list models the transport content after
`serial_conn.reset_input_buffer(); serial_conn.flush()` has discarded the
buffered backlog; the loop that follows resynchronizes to a cleanly decoded
line and discards it. -/

/-- Embedding of `flush_serial` of decode-gps-data/app.py and send-gps-data/app.py (the two
are textually identical): after resetting the input buffer, repeatedly
`readline().decode('utf-8').strip()` — a `UnicodeDecodeError` resets the line
and re-reads, and the `while not line` guard also re-reads when the stripped
line is empty; the loop ends by discarding the first non-empty cleanly decoded
line. -/
def flushSerialD : List ReadChunk → Outcome Unit
  | [] => .diverges
  | .undecodable :: rest => flushSerialD rest
  | .text s :: rest => if pyStrip s = "" then flushSerialD rest else .ok () rest

/-- Embedding of `flush_serial` of print-gps-data/app.py: same reset and re-read on
`UnicodeDecodeError`, but the guard is `while read_line is None` with no
`strip()`, so the loop ends at the first cleanly decoded line even if it is
empty. -/
def flushSerialP : List ReadChunk → Outcome Unit
  | [] => .diverges
  | .undecodable :: rest => flushSerialP rest
  | .text _ :: rest => .ok () rest

/-! Fix Extractor: `get_next_location`. -/

/-- The inner parse-retry loop of `get_next_location`: with a decoded line in
hand, `while sentence is None: try: sentence = pynmea2.parse(line) except
ParseError: line = serial_conn.readline().decode('utf-8')`.  The re-read is
not guarded by a `UnicodeDecodeError` handler, so an undecodable chunk raises
out of the function.  The second component records every line handed to
`pynmea2.parse`. -/
def parseRetryAux (l : String) (s : List ReadChunk) : Outcome Sentence × List String :=
  match parse l, s with
  | some sen, _ => (.ok sen s, [l])
  | none, [] => (.diverges, [l])
  | none, .undecodable :: _ => (.raises .unicodeDecodeError, [l])
  | none, .text l2 :: rest =>
    ((parseRetryAux l2 rest).1, l :: (parseRetryAux l2 rest).2)

/-- The GGA branch of `get_next_location`: `lat = pynmea2.dm_to_sd(sentence.lat)`,
`lon = pynmea2.dm_to_sd(sentence.lon)`, then `lat = lat * -1` when
`sentence.lat_dir == 'S'` and `lon = lon * -1` when `sentence.lon_dir == 'W'`,
and `return LatLon(lat, lon, sentence.num_sats)`.  A magnitude field not
matching the wire format would raise out of `dm_to_sd` (`AttributeError`); the
parser's required-field validation precludes it. -/
def extractFix (f : GGAFields) : Except PyExn LatLon :=
  match dmToSd f.lat with
  | none => .error .attributeError
  | some lat0 =>
    match dmToSd f.lon with
    | none => .error .attributeError
    | some lon0 =>
      latLonCall (if f.lat_dir = "S" then lat0 * (-1) else lat0)
                 (if f.lon_dir = "W" then lon0 * (-1) else lon0)
                 (some f.num_sats)

/-- The retry loop of `get_next_location` with `budget` attempts remaining
(the code starts with `retry = 0` and loops `while retry < 100`, i.e. budget
100).  Each iteration reads and decodes a line (unguarded: `UnicodeDecodeError`
propagates), runs the parse-retry loop, returns the converted fix on a GGA
sentence, and otherwise consumes one attempt.  On exhaustion the code executes
`return LatLon(-999, -999)`.  The second component records every line handed
to `pynmea2.parse`. -/
def scanAux : ℕ → List ReadChunk → Outcome LatLon × List String
  | 0, s =>
    (match latLonCall (-999) (-999) none with
     | .ok f => .ok f s
     | .error e => .raises e, [])
  | b + 1, s =>
    match s with
    | [] => (.diverges, [])
    | .undecodable :: _ => (.raises .unicodeDecodeError, [])
    | .text l :: rest =>
      match parseRetryAux l rest with
      | (.ok (.gga flds) rest2, tr) =>
        (match extractFix flds with
         | .ok f => .ok f rest2
         | .error e => .raises e, tr)
      | (.ok (.other _) rest2, tr) =>
        match scanAux b rest2 with
        | (o, tr2) => (o, tr ++ tr2)
      | (.raises e, tr) => (.raises e, tr)
      | (.diverges, tr) => (.diverges, tr)

/-- The retry loop's outcome, without the parse trace. -/
def scan (b : ℕ) (s : List ReadChunk) : Outcome LatLon := (scanAux b s).1

/-- The spec's `NextFix(maxAttempts)`: drain, then run the acquisition loop
with the given attempt budget. -/
def nextFix (b : ℕ) (s : List ReadChunk) : Outcome LatLon :=
  match flushSerialD s with
  | .ok () rest => scan b rest
  | .raises e => .raises e
  | .diverges => .diverges

/-- Embedding of `get_next_location` of decode-gps-data/app.py and send-gps-data/app.py
(textually identical cores): `flush_serial` followed by the retry loop with
its hard-coded budget of 100. -/
def getNextLocationD (s : List ReadChunk) : Outcome LatLon := nextFix 100 s

/-- The lines `get_next_location` hands to `pynmea2.parse` (the parse trace of
the acquisition loop, after the drain). -/
def gnlHandedLines (s : List ReadChunk) : List String :=
  match flushSerialD s with
  | .ok () rest => (scanAux 100 rest).2
  | _ => []

/-! Caller-visible validity predicate and downstream shaping -/

/-- The validity test of the decode-gps-data main loop:
`if lat_lon.lat > -999 and lat_lon.lon > -999`. -/
def isValidFixDecode (f : LatLon) : Bool := f.lat > -999 && f.lon > -999

/-- The validity test of the send-gps-data main loop:
`if lat_lon.lat > -999 and lat_lon.lon > -999`. -/
def isValidFixSend (f : LatLon) : Bool := f.lat > -999 && f.lon > -999

/-- A JSON value (the `json.dumps`/`json.loads` round trip between the device
message body and the Azure Function is modelled as the identity on this
abstract syntax). -/
inductive Json where
  | str (s : String)
  | num (q : ℚ)
  | arr (xs : List Json)
  | obj (fields : List (String × Json))

/-- Python dictionary lookup `j[k]` on a JSON object; `none` models a raised
`KeyError`. -/
def Json.get (j : Json) (k : String) : Option Json :=
  match j with
  | .obj fs => fs.lookup k
  | _ => none

/-- The telemetry message body built by `send_message` of send-gps-data/app.py:
`{ 'gps' : { 'lat': lat_lon.lat, 'lon': lat_lon.lon,
'num_satellites': lat_lon.num_satellites } }`. -/
def sendMessageBody (l : LatLon) : Json :=
  .obj [("gps", .obj [("lat", .num l.lat), ("lon", .num l.lon),
                      ("num_satellites", .num l.num_satellites)])]

/-- Embedding of `main` of functions/gps_data_trigger/__init__.py: from the event body and
the sending device's id, build the CosmosDB record
`{ 'animalid': …, 'num_satellites': body['gps']['num_satellites'],
'location': { 'type': 'Point',
'coordinates': [ body['gps']['lon'], body['gps']['lat'] ] } }`;
a missing key raises (`KeyError`, modelled as `none`). -/
def gpsDataTrigger (deviceId : String) (body : Json) : Option Json :=
  match body.get "gps" with
  | none => none
  | some gps =>
    match gps.get "num_satellites", gps.get "lon", gps.get "lat" with
    | some ns, some lonJ, some latJ =>
      some (.obj [("animalid", .str deviceId),
                  ("num_satellites", ns),
                  ("location", .obj [("type", .str "Point"),
                                     ("coordinates", .arr [lonJ, latJ])])])
    | _, _, _ => none

/-! Concrete sentences used by the spec's scenarios -/

/-- The spec's end-to-end GGA example line. -/
def ggaExampleLine : String :=
  "$GPGGA,123519,4807.038,N,01131.000,E,1,08,0.9,545.4,M,46.9,M,,*47"

/-- The spec's schematic non-target first line of the end-to-end scenario. -/
def rmcExampleLine : String := "$GPRMC,...*6A"

/-- A minimal well-formed sentence of a non-target type. -/
def wrongTypeLine : String := "$GPRMC,a"

/-- A GGA sentence matching the wire grammar whose latitude minutes field is
`99.999 ≥ 60` (internally inconsistent but accepted as parsed). -/
def badMinutesGGALine : String :=
  "$GPGGA,123519,8999.999,N,01131.000,E,1,08,0.9,545.4,M,46.9,M,,"

/-- Internal consistency of a line's coordinate fields, in case it parses as a
GGA sentence: latitude degrees at most 89, longitude degrees at most 179, and
decimal minutes below 60.  (The wire grammar itself enforces none of this.) -/
def GgaInRangeP (l : String) : Prop :=
  match parse l with
  | some (.gga f) =>
    (match dmParts f.lat with
     | some (d, m) => d ≤ 89 ∧ m < 60
     | none => True) ∧
    (match dmParts f.lon with
     | some (d, m) => d ≤ 179 ∧ m < 60
     | none => True)
  | _ => True

/-- A chunk `flush_serial` (decode/send variant) reads past without stopping:
an undecodable chunk, or a line that is empty once stripped. -/
def skippableD : ReadChunk → Bool
  | .undecodable => true
  | .text t => pyStrip t == ""

/-- The GGA example line as decoded raw from the transport, with its trailing
line delimiter still attached. -/
def rawGGALine : String := ggaExampleLine ++ "\r\n"

/-- One iteration of the print-gps-data display loop (lines 45-49):
`line = serial_connection.readline().decode('utf-8').strip()`, printed when
non-empty.  The result is the line displayed by this iteration, if any; the
decode here is unguarded, so an undecodable read raises. -/
def printLoopStep : ReadChunk → Except PyExn (Option String)
  | .text s => .ok (if pyStrip s = "" then none else some (pyStrip s))
  | .undecodable => .error .unicodeDecodeError

/-- One read of the resynchronization loop of `flush_serial` (decode/send
variants): `line = serial_conn.readline().decode('utf-8').strip()`, with the
`except UnicodeDecodeError` handler resetting the line to `None`. -/
def flushReadD : ReadChunk → Option String
  | .text s => some (pyStrip s)
  | .undecodable => none

/-! Equation and structure lemmas. -/

theorem parseRetryAux_parsed {l : String} {sen : Sentence} (hp : parse l = some sen)
    (s : List ReadChunk) : parseRetryAux l s = (.ok sen s, [l]) := by
  simp [parseRetryAux, hp]

theorem parseRetryAux_failed_nil {l : String} (hp : parse l = none) :
    parseRetryAux l [] = (.diverges, [l]) := by
  simp [parseRetryAux, hp]

theorem parseRetryAux_failed_undec {l : String} (hp : parse l = none)
    (s : List ReadChunk) :
    parseRetryAux l (.undecodable :: s) = (.raises .unicodeDecodeError, [l]) := by
  simp [parseRetryAux, hp]

theorem parseRetryAux_failed_text {l l2 : String} (hp : parse l = none)
    (s : List ReadChunk) :
    parseRetryAux l (.text l2 :: s) =
      ((parseRetryAux l2 s).1, l :: (parseRetryAux l2 s).2) := by
  simp [parseRetryAux, hp]

theorem scanAux_zero (s : List ReadChunk) :
    scanAux 0 s = (.raises .typeError, []) := rfl

theorem scanAux_succ_nil (b : ℕ) : scanAux (b + 1) [] = (.diverges, []) := rfl

theorem scanAux_succ_undec (b : ℕ) (s : List ReadChunk) :
    scanAux (b + 1) (.undecodable :: s) = (.raises .unicodeDecodeError, []) := rfl

theorem scanAux_succ_gga {l : String} {f : GGAFields} {rest rest2 : List ReadChunk}
    {tr : List String} (b : ℕ)
    (h : parseRetryAux l rest = (.ok (.gga f) rest2, tr)) :
    scanAux (b + 1) (.text l :: rest) =
      (match extractFix f with
       | .ok fx => .ok fx rest2
       | .error e => .raises e, tr) := by
  simp [scanAux, h]

theorem scanAux_succ_other {l t : String} {rest rest2 : List ReadChunk}
    {tr : List String} (b : ℕ)
    (h : parseRetryAux l rest = (.ok (.other t) rest2, tr)) :
    scanAux (b + 1) (.text l :: rest) =
      ((scanAux b rest2).1, tr ++ (scanAux b rest2).2) := by
  simp [scanAux, h]

theorem scanAux_succ_raises {l : String} {e : PyExn} {rest : List ReadChunk}
    {tr : List String} (b : ℕ)
    (h : parseRetryAux l rest = (.raises e, tr)) :
    scanAux (b + 1) (.text l :: rest) = (.raises e, tr) := by
  simp [scanAux, h]

theorem scanAux_succ_diverges {l : String} {rest : List ReadChunk}
    {tr : List String} (b : ℕ)
    (h : parseRetryAux l rest = (.diverges, tr)) :
    scanAux (b + 1) (.text l :: rest) = (.diverges, tr) := by
  simp [scanAux, h]

/-- A malformed line (ParseError) is skipped by the inner parse-retry loop
without touching the attempt budget. -/
theorem scan_malformed {l : String} (hp : parse l = none) (b : ℕ)
    (s : List ReadChunk) : scan b (.text l :: s) = scan b s := by
  cases b with
  | zero => rfl
  | succ b =>
    cases s with
    | nil =>
      simp [scan, scanAux_succ_nil,
        scanAux_succ_diverges b (parseRetryAux_failed_nil hp)]
    | cons c s =>
      cases c with
      | undecodable =>
        simp [scan, scanAux_succ_undec,
          scanAux_succ_raises b (parseRetryAux_failed_undec hp s)]
      | text l2 =>
        have hsplit := @parseRetryAux_failed_text l l2 hp s
        rcases h2 : parseRetryAux l2 s with ⟨o, tr⟩
        rw [h2] at hsplit
        cases o with
        | ok sen rest2 =>
          cases sen with
          | gga f =>
            rw [scan, scanAux_succ_gga b hsplit, scan, scanAux_succ_gga b h2]
          | other t =>
            rw [scan, scanAux_succ_other b hsplit, scan, scanAux_succ_other b h2]
        | raises e =>
          rw [scan, scanAux_succ_raises b hsplit, scan, scanAux_succ_raises b h2]
        | diverges =>
          rw [scan, scanAux_succ_diverges b hsplit, scan, scanAux_succ_diverges b h2]

/-- A well-formed sentence of a non-target type consumes exactly one attempt. -/
theorem scan_wrongtype {l t : String} (hp : parse l = some (.other t)) (b : ℕ)
    (s : List ReadChunk) : scan (b + 1) (.text l :: s) = scan b s := by
  rw [scan, scanAux_succ_other b (parseRetryAux_parsed hp s)]
  rfl

/-- Budget exhausted: the loop exits and executes `return LatLon(-999, -999)`,
which raises `TypeError`. -/
theorem scan_zero (s : List ReadChunk) : scan 0 s = .raises .typeError := rfl

theorem scan_replicate_wrong {l t : String} (hp : parse l = some (.other t)) :
    ∀ b : ℕ, scan b (List.replicate b (.text l)) = .raises .typeError := by
  intro b
  induction b with
  | zero => rfl
  | succ b ih => rw [List.replicate_succ, scan_wrongtype hp b, ih]

/-! Claims. -/

/-- C1: the claim says that when no well-formed GGA sentence arrives within
the attempt budget of 100, `get_next_location` returns the sentinel
`LatLon(-999, -999, 0)` as a normal return value.  The code is documented to
do exactly that ("If no GPS coordinates are found, -999, -999 is returned"),
but `return LatLon(-999, -999)` supplies only two of the three required
`NamedTuple` fields, so at the failing input below — a sync line followed by
100 well-formed non-GGA sentences — the call raises `TypeError` instead of
returning. -/
theorem c1_budget_exhausted :
    getNextLocationD (.text "x" :: List.replicate 100 (.text wrongTypeLine)) =
      .raises .typeError := by
  have hp : parse wrongTypeLine = some (.other "RMC") := by decide
  have hf : flushSerialD (.text "x" :: List.replicate 100 (.text wrongTypeLine)) =
      .ok () (List.replicate 100 (.text wrongTypeLine)) := by
    simp only [flushSerialD]
    rw [if_neg (by decide : ¬pyStrip "x" = "")]
  unfold getNextLocationD nextFix
  rw [hf]
  exact scan_replicate_wrong hp 100

/-- C2: during one call to `get_next_location`, a line that fails to parse
never consumes an attempt from the retry budget; exactly the successfully
parsed sentences whose type is not GGA consume one attempt each; and when the
budget reaches zero the loop gives up (executing the `return LatLon(-999,
-999)` exhaustion branch), regardless of interleaved malformed lines.
`get_next_location` runs this loop with budget 100 (`nextFix 100`). -/
theorem c2_attempt_budget (b : ℕ) (l t : String) (s : List ReadChunk) :
    (parse l = none → scan b (.text l :: s) = scan b s) ∧
    (parse l = some (.other t) → scan (b + 1) (.text l :: s) = scan b s) ∧
    scan 0 s = .raises .typeError :=
  ⟨fun hp => scan_malformed hp b s, fun hp => scan_wrongtype hp b s, scan_zero s⟩

/-- Witness for C2: a malformed line consumes no attempt, a well-formed RMC
sentence consumes exactly one, exhaustion at budget zero. -/
theorem c2_attempt_budget_witness :
    scan 3 (.text "garbage" :: [.text wrongTypeLine]) = scan 3 [.text wrongTypeLine] ∧
    scan 4 [.text wrongTypeLine] = scan 3 [] ∧
    scan 0 [] = .raises .typeError :=
  ⟨(c2_attempt_budget 3 "garbage" "RMC" [.text wrongTypeLine]).1 (by decide),
   (c2_attempt_budget 3 wrongTypeLine "RMC" []).2.1 (by decide),
   (c2_attempt_budget 0 "" "" []).2.2⟩

/-- C3 as stated is false: a `UnicodeDecodeError` during a line read inside
`get_next_location`'s acquisition loop is NOT recovered locally — the loop's
`readline().decode('utf-8')` calls are outside any `except UnicodeDecodeError`
handler, so it surfaces to the caller.  Concretely: after the drain consumes
the sync line `"x"`, the first acquisition read hits an undecodable chunk and
`get_next_location` raises. -/
theorem c3_counterexample :
    getNextLocationD [.text "x", .undecodable] = .raises .unicodeDecodeError := by
  decide

/-- C3 amended: a `UnicodeDecodeError` is recovered locally (discard and
re-read) only inside `flush_serial`, which consequently never surfaces any
exception — in all three variants it either diverges or returns normally;
inside `get_next_location`'s acquisition loop an undecodable read instead
propagates the `UnicodeDecodeError` to the caller. -/
theorem c3_amended (b : ℕ) (s : List ReadChunk) :
    (flushSerialD s = .diverges ∨ ∃ r, flushSerialD s = .ok () r) ∧
    (flushSerialP s = .diverges ∨ ∃ r, flushSerialP s = .ok () r) ∧
    scan (b + 1) (.undecodable :: s) = .raises .unicodeDecodeError := by
  refine ⟨?_, ?_, rfl⟩
  · induction s with
    | nil => exact .inl rfl
    | cons c s ih =>
      cases c with
      | undecodable => simpa [flushSerialD] using ih
      | text t =>
        by_cases h : pyStrip t = ""
        · simpa [flushSerialD, h] using ih
        · exact .inr ⟨s, by simp [flushSerialD, h]⟩
  · induction s with
    | nil => exact .inl rfl
    | cons c s ih =>
      cases c with
      | undecodable => simpa [flushSerialP] using ih
      | text t => exact .inr ⟨s, rfl⟩

/-- The decimal-minutes part extracted from a wire-format coordinate field is
never negative: the unsigned magnitude grammar has no sign. -/
theorem dmParts_nonneg {dm : String} {d : ℕ} {m : ℚ}
    (h : dmParts dm = some (d, m)) : 0 ≤ m := by
  unfold dmParts at h
  split at h
  · simp only [Option.some.injEq, Prod.mk.injEq] at h
    rw [← h.2]
  · split at h
    · split at h
      · simp only [Option.some.injEq, Prod.mk.injEq] at h
        rw [← h.2]
        positivity
      · exact absurd h (by simp)
    · exact absurd h (by simp)

/-- C4: for every well-formed GGA sentence, each coordinate is converted as
`decimal = degrees + minutes/60` on the unsigned magnitude (both parts
nonnegative, so the converted magnitude is nonnegative — the hemisphere sign
never participates in the arithmetic), and the result is negated if and only
if the latitude hemisphere is `S` (resp. the longitude hemisphere is `W`);
`N`/`E` (and any other) indicators leave the value unnegated. -/
theorem c4_hemisphere_sign (f : GGAFields) (q r : ℚ)
    (hq : dmToSd f.lat = some q) (hr : dmToSd f.lon = some r) :
    (∃ d m, dmParts f.lat = some (d, m) ∧ 0 ≤ m ∧ q = (d : ℚ) + m / 60) ∧
    (∃ d m, dmParts f.lon = some (d, m) ∧ 0 ≤ m ∧ r = (d : ℚ) + m / 60) ∧
    0 ≤ q ∧ 0 ≤ r ∧
    extractFix f = .ok ⟨if f.lat_dir = "S" then -q else q,
                        if f.lon_dir = "W" then -r else r, f.num_sats⟩ := by
  rw [dmToSd, Option.map_eq_some'] at hq hr
  obtain ⟨⟨dq, mq⟩, hpq, hq⟩ := hq
  obtain ⟨⟨dr, mr⟩, hpr, hr⟩ := hr
  have hmq : 0 ≤ mq := dmParts_nonneg hpq
  have hmr : 0 ≤ mr := dmParts_nonneg hpr
  have hqq : 0 ≤ q := by
    rw [← hq]
    exact add_nonneg (Nat.cast_nonneg _) (div_nonneg hmq (by norm_num))
  have hrr : 0 ≤ r := by
    rw [← hr]
    exact add_nonneg (Nat.cast_nonneg _) (div_nonneg hmr (by norm_num))
  refine ⟨⟨dq, mq, hpq, hmq, hq.symm⟩, ⟨dr, mr, hpr, hmr, hr.symm⟩, hqq, hrr, ?_⟩
  rw [extractFix, dmToSd, hpq, dmToSd, hpr]
  simp only [Option.map_some', hq, hr, latLonCall, mul_neg_one]

/-- Value `3746.2900` in degrees+decimal-minutes is `37 + 46.29/60 = 37.7715`. -/
theorem dmToSd_3746 : dmToSd "3746.2900" = some (75543 / 2000 : ℚ) := by
  have h0 : dmToSd "3746.2900" =
      some (((37 : ℕ) : ℚ) + (((46 : ℕ) : ℚ) + ((2900 : ℕ) : ℚ) / (10 : ℚ) ^ (4 : ℕ)) / 60) := rfl
  rw [h0]
  norm_num

/-- Value `12225.1000` in degrees+decimal-minutes is `122 + 25.1/60`. -/
theorem dmToSd_12225 : dmToSd "12225.1000" = some (73451 / 600 : ℚ) := by
  have h0 : dmToSd "12225.1000" =
      some (((122 : ℕ) : ℚ) + (((25 : ℕ) : ℚ) + ((1000 : ℕ) : ℚ) / (10 : ℚ) ^ (4 : ℕ)) / 60) := rfl
  rw [h0]
  norm_num

/-- Witness for C4: the spec's hemisphere examples — latitude `3746.2900 S`
gives `-(37 + 46.29/60) = -37.7715` and longitude `12225.1000 W` gives
`-(122 + 25.1/60) ≈ -122.41833`. -/
theorem c4_hemisphere_sign_witness :
    extractFix ⟨"3746.2900", "S", "12225.1000", "W", 7⟩ =
      .ok ⟨-(75543 / 2000 : ℚ), -(73451 / 600 : ℚ), 7⟩ := by
  have h := (c4_hemisphere_sign ⟨"3746.2900", "S", "12225.1000", "W", 7⟩
    (75543 / 2000) (73451 / 600) dmToSd_3746 dmToSd_12225).2.2.2.2
  rw [if_pos rfl, if_pos rfl] at h
  exact h

/-- Finding the target sentence: a line parsing as GGA makes the loop return
the converted fix at once. -/
theorem scan_gga {l : String} {f : GGAFields} {fx : LatLon}
    (hp : parse l = some (.gga f)) (hex : extractFix f = .ok fx)
    (b : ℕ) (s : List ReadChunk) : scan (b + 1) (.text l :: s) = .ok fx s := by
  show (scanAux (b + 1) (.text l :: s)).1 = .ok fx s
  rw [scanAux_succ_gga b (parseRetryAux_parsed hp s), hex]

/-- A successful drain reduces `nextFix` to the acquisition loop on the
remaining stream. -/
theorem nextFix_of_flush {s r : List ReadChunk} (h : flushSerialD s = .ok () r)
    (b : ℕ) : nextFix b s = scan b r := by
  unfold nextFix
  rw [h]

/-- Value `4807.038` in degrees+decimal-minutes is `48 + 7.038/60 = 48.1173`. -/
theorem dmToSd_4807 : dmToSd "4807.038" = some (481173 / 10000 : ℚ) := by
  have h0 : dmToSd "4807.038" =
      some (((48 : ℕ) : ℚ) + (((7 : ℕ) : ℚ) + ((38 : ℕ) : ℚ) / (10 : ℚ) ^ (3 : ℕ)) / 60) := rfl
  rw [h0]
  norm_num

/-- Value `01131.000` in degrees+decimal-minutes is `11 + 31/60`. -/
theorem dmToSd_01131 : dmToSd "01131.000" = some (691 / 60 : ℚ) := by
  have h0 : dmToSd "01131.000" =
      some (((11 : ℕ) : ℚ) + (((31 : ℕ) : ℚ) + ((0 : ℕ) : ℚ) / (10 : ℚ) ^ (3 : ℕ)) / 60) := rfl
  rw [h0]
  norm_num

/-- The GGA example's fields convert to the fix `(48.1173, 11.51666…, 8)`. -/
theorem extractFix_ggaExample :
    extractFix ⟨"4807.038", "N", "01131.000", "E", 8⟩ =
      .ok ⟨481173 / 10000, 691 / 60, 8⟩ := by
  simp only [extractFix, dmToSd_4807, dmToSd_01131]
  rw [if_neg (by decide : ¬("N" : String) = "S"),
      if_neg (by decide : ¬("E" : String) = "W")]
  rfl

/-- C5: feeding the two scenario lines with an attempt budget of 5, `NextFix`
returns a fix whose latitude and longitude are within `1e-4` of `48.1173` and
`11.51667`, with satellite count equal to the integer 8.  (The drain step
consumes the first line as its resynchronization read; the GGA line is then
found immediately.) -/
theorem c5_end_to_end :
    ∃ lat lon rest,
      nextFix 5 [.text rmcExampleLine, .text ggaExampleLine] = .ok ⟨lat, lon, 8⟩ rest ∧
      |lat - 481173 / 10000| < 1 / 10000 ∧ |lon - 1151667 / 100000| < 1 / 10000 := by
  have hgga : parse ggaExampleLine =
      some (.gga ⟨"4807.038", "N", "01131.000", "E", 8⟩) := by decide
  have hflush : flushSerialD [.text rmcExampleLine, .text ggaExampleLine] =
      .ok () [.text ggaExampleLine] := by
    simp only [flushSerialD]
    rw [if_neg (by decide : ¬pyStrip rmcExampleLine = "")]
  refine ⟨481173 / 10000, 691 / 60, [], ?_, by norm_num, ?_⟩
  · rw [nextFix_of_flush hflush]
    exact scan_gga hgga extractFix_ggaExample 4 []
  · rw [abs_lt]
    constructor <;> norm_num

/-- The inner parse-retry loop returns a sentence parsed from its line in hand
or from a line of the stream, and leaves a sub-multiset of the stream. -/
theorem parseRetryAux_ok {l : String} {s : List ReadChunk} {sen : Sentence}
    {rest : List ReadChunk} (h : (parseRetryAux l s).1 = .ok sen rest) :
    (parse l = some sen ∨ ∃ l2, ReadChunk.text l2 ∈ s ∧ parse l2 = some sen) ∧
      ∀ c ∈ rest, c ∈ s := by
  induction s generalizing l with
  | nil =>
    cases hp : parse l with
    | some sen2 =>
      rw [parseRetryAux_parsed hp] at h
      obtain ⟨h1, h2⟩ : sen2 = sen ∧ ([] : List ReadChunk) = rest := by
        simpa using h
      subst h1; subst h2
      exact ⟨.inl rfl, by simp⟩
    | none =>
      rw [parseRetryAux_failed_nil hp] at h
      simp at h
  | cons c s ih =>
    cases hp : parse l with
    | some sen2 =>
      rw [parseRetryAux_parsed hp] at h
      obtain ⟨h1, h2⟩ : sen2 = sen ∧ c :: s = rest := by simpa using h
      subst h1; subst h2
      exact ⟨.inl rfl, fun x hx => hx⟩
    | none =>
      cases c with
      | undecodable =>
        rw [parseRetryAux_failed_undec hp] at h
        simp at h
      | text l2 =>
        rw [parseRetryAux_failed_text hp] at h
        dsimp only at h
        obtain ⟨hsrc, hsub⟩ := ih h
        refine ⟨.inr ?_, fun x hx => List.mem_cons_of_mem _ (hsub x hx)⟩
        rcases hsrc with hsrc | ⟨l3, hm, hp3⟩
        · exact ⟨l2, List.mem_cons_self _ _, hsrc⟩
        · exact ⟨l3, List.mem_cons_of_mem _ hm, hp3⟩

/-- Every fix the acquisition loop returns comes from a GGA sentence parsed
from a line of the stream, through `extractFix`. -/
theorem scan_ok_src {b : ℕ} {s rest : List ReadChunk} {f : LatLon}
    (h : scan b s = .ok f rest) :
    ∃ l flds, ReadChunk.text l ∈ s ∧ parse l = some (.gga flds) ∧
      extractFix flds = .ok f := by
  induction b generalizing s with
  | zero => rw [scan_zero] at h; simp at h
  | succ b ih =>
    cases s with
    | nil =>
      have : scan (b + 1) ([] : List ReadChunk) = .diverges := rfl
      rw [this] at h; simp at h
    | cons c s =>
      cases c with
      | undecodable =>
        have : scan (b + 1) (ReadChunk.undecodable :: s) = .raises .unicodeDecodeError := rfl
        rw [this] at h; simp at h
      | text l =>
        rcases hpr : parseRetryAux l s with ⟨o, tr⟩
        cases o with
        | ok sen rest2 =>
          cases sen with
          | gga flds =>
            have hs : scan (b + 1) (.text l :: s) =
                match extractFix flds with
                | .ok fx => .ok fx rest2
                | .error e => .raises e := by
              show (scanAux (b + 1) (.text l :: s)).1 = _
              rw [scanAux_succ_gga b hpr]
            rw [hs] at h
            cases hex : extractFix flds with
            | ok fx =>
              rw [hex] at h
              obtain ⟨rfl, rfl⟩ : fx = f ∧ rest2 = rest := by simpa using h
              have hsrc := (parseRetryAux_ok (by rw [hpr])).1
              rcases hsrc with hsrc | ⟨l2, hm, hp2⟩
              · exact ⟨l, flds, List.mem_cons_self _ _, hsrc, hex⟩
              · exact ⟨l2, flds, List.mem_cons_of_mem _ hm, hp2, hex⟩
            | error e => rw [hex] at h; simp at h
          | other t =>
            have hs : scan (b + 1) (.text l :: s) = scan b rest2 := by
              show (scanAux (b + 1) (.text l :: s)).1 = _
              rw [scanAux_succ_other b hpr]
              rfl
            rw [hs] at h
            obtain ⟨l2, flds, hm, hp2, hex⟩ := ih h
            have hsub := (@parseRetryAux_ok l s (.other t) rest2 (by rw [hpr])).2
            exact ⟨l2, flds, List.mem_cons_of_mem _ (hsub _ hm), hp2, hex⟩
        | raises e =>
          have hs : scan (b + 1) (.text l :: s) = .raises e := by
            show (scanAux (b + 1) (.text l :: s)).1 = _
            rw [scanAux_succ_raises b hpr]
          rw [hs] at h; simp at h
        | diverges =>
          have hs : scan (b + 1) (.text l :: s) = .diverges := by
            show (scanAux (b + 1) (.text l :: s)).1 = _
            rw [scanAux_succ_diverges b hpr]
          rw [hs] at h; simp at h

/-- The stream left over by a successful drain is a sub-multiset of the input
stream. -/
theorem flushSerialD_sub {s r : List ReadChunk} (h : flushSerialD s = .ok () r) :
    ∀ c ∈ r, c ∈ s := by
  induction s with
  | nil => simp [flushSerialD] at h
  | cons c s ih =>
    cases c with
    | undecodable =>
      have h2 : flushSerialD s = .ok () r := by simpa [flushSerialD] using h
      exact fun x hx => List.mem_cons_of_mem _ (ih h2 x hx)
    | text t =>
      by_cases ht : pyStrip t = ""
      · have h2 : flushSerialD s = .ok () r := by simpa [flushSerialD, ht] using h
        exact fun x hx => List.mem_cons_of_mem _ (ih h2 x hx)
      · have h2 : s = r := by simpa [flushSerialD, ht] using h
        subst h2
        exact fun x hx => List.mem_cons_of_mem _ hx

/-- Conversion output bounds for an internally consistent GGA sentence. -/
theorem extractFix_in_range {l : String} {flds : GGAFields} {f : LatLon}
    (hp : parse l = some (.gga flds)) (hg : GgaInRangeP l)
    (hex : extractFix flds = .ok f) :
    -90 ≤ f.lat ∧ f.lat ≤ 90 ∧ -180 ≤ f.lon ∧ f.lon ≤ 180 ∧ 0 ≤ f.num_satellites := by
  rw [GgaInRangeP, hp] at hg
  dsimp only at hg
  rw [extractFix] at hex
  cases hqa : dmToSd flds.lat with
  | none => rw [hqa] at hex; simp at hex
  | some lat0 =>
    rw [hqa] at hex
    cases hqb : dmToSd flds.lon with
    | none => rw [hqb] at hex; simp at hex
    | some lon0 =>
      rw [hqb] at hex
      simp only [latLonCall] at hex
      have hf : f = ⟨if flds.lat_dir = "S" then lat0 * (-1) else lat0,
                     if flds.lon_dir = "W" then lon0 * (-1) else lon0,
                     flds.num_sats⟩ := by
        cases hex; rfl
      rw [dmToSd, Option.map_eq_some'] at hqa hqb
      obtain ⟨⟨da, ma⟩, hpa, hva⟩ := hqa
      obtain ⟨⟨db, mb⟩, hpb, hvb⟩ := hqb
      dsimp only at hva hvb
      rw [hpa, hpb] at hg
      dsimp only at hg
      obtain ⟨⟨hda, hma⟩, ⟨hdb, hmb⟩⟩ := hg
      have hma0 : 0 ≤ ma := dmParts_nonneg hpa
      have hmb0 : 0 ≤ mb := dmParts_nonneg hpb
      have hlat0 : 0 ≤ lat0 ∧ lat0 ≤ 90 := by
        rw [← hva]
        have hda2 : (da : ℚ) ≤ 89 := by exact_mod_cast hda
        constructor
        · positivity
        · have : ma / 60 ≤ 1 := by
            rw [div_le_one (by norm_num)]
            linarith
          linarith
      have hlon0 : 0 ≤ lon0 ∧ lon0 ≤ 180 := by
        rw [← hvb]
        have hdb2 : (db : ℚ) ≤ 179 := by exact_mod_cast hdb
        constructor
        · positivity
        · have : mb / 60 ≤ 1 := by
            rw [div_le_one (by norm_num)]
            linarith
          linarith
      subst hf
      refine ⟨?_, ?_, ?_, ?_, Nat.zero_le _⟩ <;> dsimp only <;> split_ifs <;>
        nlinarith [hlat0.1, hlat0.2, hlon0.1, hlon0.2]

theorem parse_ggaExample :
    parse ggaExampleLine = some (.gga ⟨"4807.038", "N", "01131.000", "E", 8⟩) := by
  decide

theorem parse_badMinutes :
    parse badMinutesGGALine = some (.gga ⟨"8999.999", "N", "01131.000", "E", 8⟩) := by
  decide

theorem dmParts_4807 : dmParts "4807.038" = some (48, 7038 / 1000) := by
  have h0 : dmParts "4807.038" =
      some (48, ((7 : ℕ) : ℚ) + ((38 : ℕ) : ℚ) / (10 : ℚ) ^ (3 : ℕ)) := rfl
  rw [h0]
  norm_num

theorem dmParts_01131 : dmParts "01131.000" = some (11, 31) := by
  have h0 : dmParts "01131.000" =
      some (11, ((31 : ℕ) : ℚ) + ((0 : ℕ) : ℚ) / (10 : ℚ) ^ (3 : ℕ)) := rfl
  rw [h0]
  norm_num

/-- Value `8999.999` matches the wire grammar with degrees `89` and minutes
`99.999 ≥ 60`. -/
theorem dmToSd_8999 : dmToSd "8999.999" = some (1813333 / 20000 : ℚ) := by
  have h0 : dmToSd "8999.999" =
      some (((89 : ℕ) : ℚ) + (((99 : ℕ) : ℚ) + ((999 : ℕ) : ℚ) / (10 : ℚ) ^ (3 : ℕ)) / 60) := rfl
  rw [h0]
  norm_num

theorem extractFix_badMinutes :
    extractFix ⟨"8999.999", "N", "01131.000", "E", 8⟩ =
      .ok ⟨1813333 / 20000, 691 / 60, 8⟩ := by
  simp only [extractFix, dmToSd_8999, dmToSd_01131]
  rw [if_neg (by decide : ¬("N" : String) = "S"),
      if_neg (by decide : ¬("E" : String) = "W")]
  rfl

theorem GgaInRangeP_of_none {l : String} (h : parse l = none) : GgaInRangeP l := by
  rw [GgaInRangeP, h]
  trivial

theorem ggaExample_inRange : GgaInRangeP ggaExampleLine := by
  rw [GgaInRangeP, parse_ggaExample]
  dsimp only
  rw [dmParts_4807, dmParts_01131]
  dsimp only
  refine ⟨⟨by norm_num, by norm_num⟩, by norm_num, by norm_num⟩

/-- C6 as stated is false: an internally inconsistent GGA sentence that
nonetheless matches the wire grammar — here latitude `8999.999 N`, whose
minutes field is `99.999 ≥ 60` — is accepted as parsed, and
`get_next_location` returns a non-sentinel fix whose latitude exceeds 90. -/
theorem c6_counterexample :
    ∃ f rest, getNextLocationD [.text "x", .text badMinutesGGALine] = .ok f rest ∧
      90 < f.lat := by
  have hflush : flushSerialD [.text "x", .text badMinutesGGALine] =
      .ok () [.text badMinutesGGALine] := by
    simp only [flushSerialD]
    rw [if_neg (by decide : ¬pyStrip "x" = "")]
  refine ⟨⟨1813333 / 20000, 691 / 60, 8⟩, [], ?_, by norm_num⟩
  show nextFix 100 _ = _
  rw [nextFix_of_flush hflush]
  exact scan_gga parse_badMinutes extractFix_badMinutes 99 []

/-- C6 amended: every fix `get_next_location` returns has latitude in
`[-90, 90]`, longitude in `[-180, 180]` and satellite count `≥ 0`, provided
every line of the stream that parses as a GGA sentence is internally
consistent (latitude degrees ≤ 89, longitude degrees ≤ 179, minutes < 60);
without that proviso a wire-grammar-conforming sentence can put the
coordinates out of range. -/
theorem c6_range (s : List ReadChunk) (f : LatLon) (rest : List ReadChunk)
    (hs : ∀ l, ReadChunk.text l ∈ s → GgaInRangeP l)
    (h : getNextLocationD s = .ok f rest) :
    -90 ≤ f.lat ∧ f.lat ≤ 90 ∧ -180 ≤ f.lon ∧ f.lon ≤ 180 ∧ 0 ≤ f.num_satellites := by
  unfold getNextLocationD nextFix at h
  cases hfl : flushSerialD s with
  | ok u r0 =>
    cases u
    rw [hfl] at h
    obtain ⟨l, flds, hm, hp2, hex⟩ := scan_ok_src h
    exact extractFix_in_range hp2 (hs l (flushSerialD_sub hfl _ hm)) hex
  | raises e =>
    rw [hfl] at h
    simp at h
  | diverges =>
    rw [hfl] at h
    simp at h

/-- Witness for C6 (amended): the end-to-end example stream is internally
consistent and its returned fix satisfies the bounds. -/
theorem c6_range_witness :
    -90 ≤ ((481173 : ℚ) / 10000) ∧ (481173 : ℚ) / 10000 ≤ 90 ∧
      -180 ≤ ((691 : ℚ) / 60) ∧ (691 : ℚ) / 60 ≤ 180 ∧ (0 : ℕ) ≤ 8 := by
  have hflush : flushSerialD [.text "x", .text ggaExampleLine] =
      .ok () [.text ggaExampleLine] := by
    simp only [flushSerialD]
    rw [if_neg (by decide : ¬pyStrip "x" = "")]
  have hgnl : getNextLocationD [.text "x", .text ggaExampleLine] =
      .ok ⟨481173 / 10000, 691 / 60, 8⟩ [] := by
    show nextFix 100 _ = _
    rw [nextFix_of_flush hflush]
    exact scan_gga parse_ggaExample extractFix_ggaExample 99 []
  have hs : ∀ l, ReadChunk.text l ∈
      [ReadChunk.text "x", ReadChunk.text ggaExampleLine] → GgaInRangeP l := by
    intro l hl
    rcases List.mem_cons.1 hl with h1 | hl
    · cases h1
      exact GgaInRangeP_of_none (by decide)
    · rcases List.mem_cons.1 hl with h2 | hl
      · cases h2
        exact ggaExample_inRange
      · simp at hl
  exact c6_range _ _ _ hs hgnl

/-- Every line in the inner parse-retry loop's trace is the line in hand or
the text of a stream chunk. -/
theorem parseRetryAux_trace {l l2 : String} {s : List ReadChunk}
    (h : l2 ∈ (parseRetryAux l s).2) : l2 = l ∨ ReadChunk.text l2 ∈ s := by
  induction s generalizing l with
  | nil =>
    cases hp : parse l with
    | some sen => rw [parseRetryAux_parsed hp] at h; exact .inl (by simpa using h)
    | none => rw [parseRetryAux_failed_nil hp] at h; exact .inl (by simpa using h)
  | cons c s ih =>
    cases hp : parse l with
    | some sen => rw [parseRetryAux_parsed hp] at h; exact .inl (by simpa using h)
    | none =>
      cases c with
      | undecodable =>
        rw [parseRetryAux_failed_undec hp] at h
        exact .inl (by simpa using h)
      | text l3 =>
        rw [parseRetryAux_failed_text hp] at h
        dsimp only at h
        rcases List.mem_cons.1 h with h1 | h2
        · exact .inl h1
        · rcases ih h2 with h3 | h4
          · exact .inr (by rw [h3]; exact List.mem_cons_self _ _)
          · exact .inr (List.mem_cons_of_mem _ h4)

/-- Every line the acquisition loop hands to the parser is the verbatim text
of a chunk of the stream: no stripping or other modification is applied. -/
theorem scanAux_trace_sub (b : ℕ) (s : List ReadChunk) (l : String)
    (h : l ∈ (scanAux b s).2) : ReadChunk.text l ∈ s := by
  induction b generalizing s with
  | zero => rw [scanAux_zero] at h; simp at h
  | succ b ih =>
    cases s with
    | nil => rw [scanAux_succ_nil] at h; simp at h
    | cons c s =>
      cases c with
      | undecodable => rw [scanAux_succ_undec] at h; simp at h
      | text l2 =>
        rcases hpr : parseRetryAux l2 s with ⟨o, tr⟩
        have htr : tr = (parseRetryAux l2 s).2 := by rw [hpr]
        cases o with
        | ok sen rest2 =>
          cases sen with
          | gga flds =>
            rw [scanAux_succ_gga b hpr] at h
            dsimp only at h
            rw [htr] at h
            rcases parseRetryAux_trace h with h1 | h2
            · rw [h1]; exact List.mem_cons_self _ _
            · exact List.mem_cons_of_mem _ h2
          | other t =>
            rw [scanAux_succ_other b hpr] at h
            dsimp only at h
            rcases List.mem_append.1 h with h1 | h2
            · rw [htr] at h1
              rcases parseRetryAux_trace h1 with h3 | h4
              · rw [h3]; exact List.mem_cons_self _ _
              · exact List.mem_cons_of_mem _ h4
            · have hsub := (@parseRetryAux_ok l2 s (.other t) rest2 (by rw [hpr])).2
              exact List.mem_cons_of_mem _ (hsub _ (ih _ h2))
        | raises e =>
          rw [scanAux_succ_raises b hpr] at h
          dsimp only at h
          rw [htr] at h
          rcases parseRetryAux_trace h with h1 | h2
          · rw [h1]; exact List.mem_cons_self _ _
          · exact List.mem_cons_of_mem _ h2
        | diverges =>
          rw [scanAux_succ_diverges b hpr] at h
          dsimp only at h
          rw [htr] at h
          rcases parseRetryAux_trace h with h1 | h2
          · rw [h1]; exact List.mem_cons_self _ _
          · exact List.mem_cons_of_mem _ h2

/-- The drain consumes the sync line and the acquisition loop hands the raw
GGA line — trailing `\r\n` included — to the parser. -/
theorem gnlHandedLines_example :
    gnlHandedLines [.text "x", .text rawGGALine] = [rawGGALine] := by
  have hp : parse rawGGALine =
      some (.gga ⟨"4807.038", "N", "01131.000", "E", 8⟩) := by decide
  have hflush : flushSerialD [.text "x", .text rawGGALine] =
      .ok () [.text rawGGALine] := by
    simp only [flushSerialD]
    rw [if_neg (by decide : ¬pyStrip "x" = "")]
  unfold gnlHandedLines
  rw [hflush]
  show (scanAux (99 + 1) [.text rawGGALine]).2 = [rawGGALine]
  rw [scanAux_succ_gga 99 (parseRetryAux_parsed hp [])]

/-- C7 as stated is false: the lines `get_next_location` reads inside its
acquisition loop are handed to the sentence parser exactly as decoded — the
loop's `readline().decode('utf-8')` has no `.strip()` — so a line with its
trailing `\r\n` delimiter attached reaches the parser unstripped. -/
theorem c7_counterexample :
    gnlHandedLines [.text "x", .text rawGGALine] = [rawGGALine] ∧
      pyStrip rawGGALine ≠ rawGGALine :=
  ⟨gnlHandedLines_example, by decide⟩

/-- Dropping a prefix of satisfied elements twice is the same as dropping it
once. -/
theorem dropWhile_dropWhile {α : Type} (p : α → Bool) (l : List α) :
    (l.dropWhile p).dropWhile p = l.dropWhile p := by
  induction l with
  | nil => rfl
  | cons a t ih =>
    rw [List.dropWhile_cons]
    by_cases hp : p a = true
    · rw [if_pos hp]; exact ih
    · rw [if_neg hp, List.dropWhile_cons, if_neg hp]

/-- A prefix of a list that `dropWhile` leaves unchanged is itself left
unchanged. -/
theorem dropWhile_eq_self_of_prefix {α : Type} {p : α → Bool} {l r : List α}
    (h : (l ++ r).dropWhile p = l ++ r) : l.dropWhile p = l := by
  cases l with
  | nil => rfl
  | cons a t =>
    rw [List.cons_append, List.dropWhile_cons] at h
    by_cases hp : p a = true
    · exfalso
      rw [if_pos hp] at h
      have hlen : (List.dropWhile p (t ++ r)).length ≤ (t ++ r).length :=
        (List.dropWhile_suffix p).sublist.length_le
      rw [h] at hlen
      simp at hlen
    · rw [List.dropWhile_cons, if_neg hp]

/-- Trimming both ends of a character list is idempotent. -/
theorem trimChars_idem (cs : List Char) : trimChars (trimChars cs) = trimChars cs := by
  unfold trimChars
  generalize hA0 : List.dropWhile Char.isWhitespace cs = A
  have hAA : List.dropWhile Char.isWhitespace A = A := by
    rw [← hA0]
    exact dropWhile_dropWhile _ _
  have hsplit : (List.dropWhile Char.isWhitespace A.reverse).reverse ++
      (List.takeWhile Char.isWhitespace A.reverse).reverse = A := by
    rw [← List.reverse_append, List.takeWhile_append_dropWhile, List.reverse_reverse]
  have h1 : List.dropWhile Char.isWhitespace
      (List.dropWhile Char.isWhitespace A.reverse).reverse =
      (List.dropWhile Char.isWhitespace A.reverse).reverse :=
    dropWhile_eq_self_of_prefix (by rw [hsplit]; exact hAA)
  rw [h1, List.reverse_reverse, dropWhile_dropWhile]

/-- Python `strip()` is idempotent: a stripped line strips to itself. -/
theorem pyStrip_idem (s : String) : pyStrip (pyStrip s) = pyStrip s := by
  show (⟨trimChars (trimChars s.data)⟩ : String) = ⟨trimChars s.data⟩
  rw [trimChars_idem]

/-- Every line `get_next_location` hands to the parser is the verbatim text of
a chunk of its input stream. -/
theorem gnlHandedLines_sub (s : List ReadChunk) (l : String)
    (h : l ∈ gnlHandedLines s) : ReadChunk.text l ∈ s := by
  unfold gnlHandedLines at h
  cases hfl : flushSerialD s with
  | ok u r0 =>
    cases u
    rw [hfl] at h
    exact flushSerialD_sub hfl _ (scanAux_trace_sub 100 r0 l h)
  | raises e => rw [hfl] at h; simp at h
  | diverges => rw [hfl] at h; simp at h

/-- C7 amended: the stripping described by the spec happens in
`flush_serial`'s resynchronization read (decode/send variants) and in the
print display loop — every line the print loop displays, and every line the
resynchronization read binds, is stripped (strips to itself; displayed lines
are additionally non-empty) — but not in `get_next_location`: every line its
acquisition loop hands to the sentence parser is the verbatim decoded text of
a stream chunk, with no stripping applied (the parser itself tolerates the
trailing delimiter). -/
theorem c7_stripping (s : List ReadChunk) (c : ReadChunk) (l t : String) :
    (l ∈ gnlHandedLines s → ReadChunk.text l ∈ s) ∧
    (printLoopStep c = .ok (some t) → pyStrip t = t ∧ t ≠ "") ∧
    (flushReadD c = some t → pyStrip t = t) := by
  refine ⟨gnlHandedLines_sub s l, fun h => ?_, fun h => ?_⟩
  · cases c with
    | undecodable => simp [printLoopStep] at h
    | text raw =>
      simp only [printLoopStep] at h
      by_cases hr : pyStrip raw = ""
      · rw [if_pos hr] at h
        simp at h
      · rw [if_neg hr] at h
        have ht : pyStrip raw = t := by simpa using h
        rw [← ht]
        exact ⟨pyStrip_idem raw, hr⟩
  · cases c with
    | undecodable => simp [flushReadD] at h
    | text raw =>
      have ht : pyStrip raw = t := by simpa [flushReadD] using h
      rw [← ht]
      exact pyStrip_idem raw

/-- Witness for C7 (amended): the raw-GGA stream's handed line, and a
display-loop and flush-read iteration on a padded line. -/
theorem c7_stripping_witness :
    ReadChunk.text rawGGALine ∈ [ReadChunk.text "x", ReadChunk.text rawGGALine] ∧
      (pyStrip "abc" = "abc" ∧ "abc" ≠ "") ∧ pyStrip "abc" = "abc" := by
  have h := c7_stripping [.text "x", .text rawGGALine] (.text "  abc \r\n")
    rawGGALine "abc"
  exact ⟨h.1 (by rw [gnlHandedLines_example]; exact List.mem_singleton.2 rfl),
         h.2.1 (by
           simp only [printLoopStep]
           rw [if_neg (by decide : ¬pyStrip "  abc \r\n" = ""),
               show pyStrip "  abc \r\n" = "abc" from by decide]),
         h.2.2 (by decide)⟩

/-- C8: for every fix forwarded downstream, the telemetry message body is
exactly `{"gps": {"lat": …, "lon": …, "num_satellites": …}}`, and the stored
record's location is a GeoJSON `Point` whose coordinates array is ordered
`[longitude, latitude]`, both taken from that same `gps` object. -/
theorem c8_downstream_shape (f : LatLon) (deviceId : String) :
    sendMessageBody f =
      .obj [("gps", .obj [("lat", .num f.lat), ("lon", .num f.lon),
                          ("num_satellites", .num f.num_satellites)])] ∧
    gpsDataTrigger deviceId (sendMessageBody f) =
      some (.obj [("animalid", .str deviceId),
                  ("num_satellites", .num f.num_satellites),
                  ("location", .obj [("type", .str "Point"),
                                     ("coordinates", .arr [.num f.lon, .num f.lat])])]) :=
  ⟨rfl, rfl⟩

/-- C9: the caller-visible validity test in both polling loops accepts a fix
iff `lat > -999` and `lon > -999` (strict comparisons, conjunction); the
no-fix sentinel `(-999, -999, 0)` is always rejected; and any fix whose
latitude is at least -90 and longitude at least -180 — as hemisphere
conversion of an in-range sentence produces — is always accepted. -/
theorem c9_validity_predicate (f : LatLon) :
    (isValidFixDecode f = true ↔ f.lat > -999 ∧ f.lon > -999) ∧
    (isValidFixSend f = true ↔ f.lat > -999 ∧ f.lon > -999) ∧
    isValidFixDecode ⟨-999, -999, 0⟩ = false ∧
    isValidFixSend ⟨-999, -999, 0⟩ = false ∧
    (-90 ≤ f.lat → -180 ≤ f.lon →
      isValidFixDecode f = true ∧ isValidFixSend f = true) := by
  have hd : ∀ g : LatLon, isValidFixDecode g = true ↔ g.lat > -999 ∧ g.lon > -999 := by
    intro g
    simp [isValidFixDecode]
  have hs : ∀ g : LatLon, isValidFixSend g = true ↔ g.lat > -999 ∧ g.lon > -999 := by
    intro g
    simp [isValidFixSend]
  refine ⟨hd f, hs f, ?_, ?_, fun h1 h2 => ?_⟩
  · rw [Bool.eq_false_iff, Ne, hd]
    norm_num
  · rw [Bool.eq_false_iff, Ne, hs]
    norm_num
  · constructor
    · rw [hd]; constructor <;> [linarith; linarith]
    · rw [hs]; constructor <;> [linarith; linarith]

/-- Witness for C9: the end-to-end example fix is accepted by both loops. -/
theorem c9_validity_predicate_witness :
    isValidFixDecode ⟨481173 / 10000, 691 / 60, 8⟩ = true ∧
    isValidFixSend ⟨481173 / 10000, 691 / 60, 8⟩ = true :=
  (c9_validity_predicate ⟨481173 / 10000, 691 / 60, 8⟩).2.2.2.2
    (by norm_num) (by norm_num)

/-- Skippable chunks are passed over by the decode/send drain. -/
theorem flushSerialD_skips :
    ∀ pre : List ReadChunk, (∀ c ∈ pre, skippableD c = true) →
      ∀ tail, flushSerialD (pre ++ tail) = flushSerialD tail := by
  intro pre
  induction pre with
  | nil => intro _ tail; rfl
  | cons c pre ih =>
    intro h1 tail
    have hc := h1 c (List.mem_cons_self _ _)
    have h1b : ∀ x ∈ pre, skippableD x = true :=
      fun x hx => h1 x (List.mem_cons_of_mem _ hx)
    cases c with
    | undecodable => simpa [flushSerialD] using ih h1b tail
    | text u =>
      have hu : pyStrip u = "" := by simpa [skippableD] using hc
      simpa [flushSerialD, hu] using ih h1b tail

/-- Undecodable chunks are passed over by the print drain. -/
theorem flushSerialP_skips :
    ∀ pre : List ReadChunk, (∀ c ∈ pre, c = ReadChunk.undecodable) →
      ∀ tail, flushSerialP (pre ++ tail) = flushSerialP tail := by
  intro pre
  induction pre with
  | nil => intro _ tail; rfl
  | cons c pre ih =>
    intro h1 tail
    have hc := h1 c (List.mem_cons_self _ _)
    have h1b : ∀ x ∈ pre, x = ReadChunk.undecodable :=
      fun x hx => h1 x (List.mem_cons_of_mem _ hx)
    subst hc
    simpa [flushSerialP] using ih h1b tail

/-- C10: `flush_serial` does more than resetting the input buffer — it then
blocks reading lines until one decodes cleanly (decode/send variants: until
the decoded, stripped line is also non-empty; print variant: any decoded
line), discards that first good line, and returns nothing: the remaining
stream starts after the discarded line, and with no good line in the stream
the drain never returns. -/
theorem c10_flush_drain (pre preP rest : List ReadChunk) (s t : String)
    (h1 : ∀ c ∈ pre, skippableD c = true) (h2 : ¬pyStrip s = "")
    (h3 : ∀ c ∈ preP, c = ReadChunk.undecodable) :
    flushSerialD (pre ++ .text s :: rest) = .ok () rest ∧
    flushSerialD pre = .diverges ∧
    flushSerialP (preP ++ .text t :: rest) = .ok () rest := by
  refine ⟨?_, ?_, ?_⟩
  · rw [flushSerialD_skips pre h1]
    simp [flushSerialD, h2]
  · have h4 := flushSerialD_skips pre h1 []
    rw [List.append_nil] at h4
    rw [h4]
    rfl
  · rw [flushSerialP_skips preP h3]
    rfl

/-- Witness for C10: a drain past an undecodable chunk and a whitespace-only
line (decode/send), and past an undecodable chunk (print, stopping even at an
empty line). -/
theorem c10_flush_drain_witness :
    flushSerialD [.undecodable, .text "  ", .text "x", .text "z"] = .ok () [.text "z"] ∧
    flushSerialD [.undecodable, .text "  "] = .diverges ∧
    flushSerialP [.undecodable, .text "", .text "z"] = .ok () [.text "z"] :=
  c10_flush_drain [.undecodable, .text "  "] [.undecodable] [.text "z"] "x" ""
    (by decide) (by decide) (by decide)

end GPS
